import Mathlib

/-
Shallow embedding of hookt.py (event-hook dispatch library).

Modelling conventions:
- Python values are `PyVal` (atoms, object references, tuples).
- Callbacks/listeners are identified by a `Nat` id; their behaviour during a
  trigger invocation is supplied by an environment `env : Nat → List PyVal →
  Except Err PyVal`.
- Asynchronous functions are modelled as pure functions returning
  `Except Err PyVal`: `.error e` models a raised exception.
- Python `set` objects of callbacks are `Finset Nat`; `set.add` is `insert`.
- The per-instance dict `_self_instance_listeners` is an association list
  `List (Inst × Finset Nat)`. Python dict lookup compares keys with
  `__hash__`/`__eq__`; an `Inst` therefore carries both its identity `id`
  and its equivalence class `eqKey` under `__eq__` (for classes with the
  default object equality, `eqKey` coincides with `id`). Insertion appends
  at the end, matching dict insertion order.
- Mutation of objects reached through shared references is modelled by
  state passing on the owning `Trigger`/`TriggerGroup`: a BoundTrigger is
  the pair (trigger state, instance key), since its two set references
  point into the trigger's state.
-/

set_option autoImplicit false

namespace Hookt

/-- Exceptions that the embedded code can raise. -/
inductive Err where
  /-- An exception raised by user code (a wrapped callable or a listener). -/
  | user (n : Nat)
  /-- `TypeError("Trigger has not been defined yet")` raised by the body of
  `DummyTrigger.__call__` (hookt.py line 55). -/
  | typeErrorNotDefined
  /-- `TypeError` raised by the interpreter when `DummyTrigger.__call__`,
  declared as `async def __call__(self)`, receives extra arguments. -/
  | typeErrorExtraArgs
  /-- `TypeError` raised by `DummyTrigger()`: `DummyTrigger` never overrides
  the abstract method `BaseTrigger.hook`, so the ABC machinery refuses to
  instantiate it. -/
  | typeErrorAbstractDummy
  /-- `NameError` raised at hookt.py line 177: the local `h` is read before
  ever being assigned (line 176 assigns `f` instead). -/
  | nameErrorUnboundH
  /-- `ValueError(f'Trigger "{name}" already defined')` (hookt.py line 178). -/
  | valueErrorAlreadyDefined (name : String)
  /-- Failure propagated by the anyio task group when a spawned listener
  raises (structured concurrency: siblings cancelled, failure re-raised). -/
  | listenerFailure
  deriving DecidableEq

/-- Python values, as far as the library inspects them: the dispatch code
only distinguishes tuples (`type(r) is tuple`) from everything else. -/
inductive PyVal where
  /-- An opaque non-tuple value. -/
  | atom (n : Nat)
  /-- A reference to an instance object, by identity. -/
  | inst (id : Nat)
  /-- A tuple of values. -/
  | tuple (xs : List PyVal)

mutual

/-- Decidable equality for `PyVal` (written by hand because the automatic
derivation does not handle the nested `List`). -/
def PyVal.decEq : (a b : PyVal) → Decidable (a = b)
  | .atom m, .atom n =>
    if h : m = n then .isTrue (by rw [h]) else .isFalse (fun c => by cases c; exact h rfl)
  | .inst m, .inst n =>
    if h : m = n then .isTrue (by rw [h]) else .isFalse (fun c => by cases c; exact h rfl)
  | .tuple xs, .tuple ys =>
    match PyVal.decEqList xs ys with
    | .isTrue h => .isTrue (by rw [h])
    | .isFalse h => .isFalse (fun c => by cases c; exact h rfl)
  | .atom _, .inst _ => .isFalse nofun
  | .atom _, .tuple _ => .isFalse nofun
  | .inst _, .atom _ => .isFalse nofun
  | .inst _, .tuple _ => .isFalse nofun
  | .tuple _, .atom _ => .isFalse nofun
  | .tuple _, .inst _ => .isFalse nofun

/-- Decidable equality for lists of `PyVal`. -/
def PyVal.decEqList : (a b : List PyVal) → Decidable (a = b)
  | [], [] => .isTrue rfl
  | [], _ :: _ => .isFalse nofun
  | _ :: _, [] => .isFalse nofun
  | x :: xs, y :: ys =>
    match PyVal.decEq x y, PyVal.decEqList xs ys with
    | .isTrue h1, .isTrue h2 => .isTrue (by rw [h1, h2])
    | .isFalse h1, _ => .isFalse (fun c => by cases c; exact h1 rfl)
    | _, .isFalse h2 => .isFalse (fun c => by cases c; exact h2 rfl)

end

instance : DecidableEq PyVal := PyVal.decEq

/-- An instance object used as a key of `_self_instance_listeners`.
`id` is the object's identity; `eqKey` is its equivalence class under
`__eq__`/`__hash__`, which is what a Python dict keys on. Two `Inst` with
the same `eqKey` are distinct objects that compare equal. -/
structure Inst where
  id : Nat
  eqKey : Nat
  deriving DecidableEq

/-- Python dict lookup on `_self_instance_listeners`: find the entry whose
key compares equal (`__eq__`) to `i`. -/
def dfind : List (Inst × Finset Nat) → Inst → Option (Finset Nat)
  | [], _ => none
  | p :: d, i => if p.1.eqKey = i.eqKey then some p.2 else dfind d i

/-- Mutation of the set object stored under the key equal to `i`
(the set that `self._self_instance_listeners[instance]` aliases). -/
def dupdate : List (Inst × Finset Nat) → Inst → (Finset Nat → Finset Nat) →
    List (Inst × Finset Nat)
  | [], _, _ => []
  | p :: d, i, g =>
    if p.1.eqKey = i.eqKey then (p.1, g p.2) :: d else p :: dupdate d i g

/-- Decide whether an `Except` result is a success. -/
def isOk : Except Err PyVal → Bool
  | .ok _ => true
  | .error _ => false

/-- Normalization of the wrapped result at hookt.py line 30:
`s = r if type(r) is tuple else (r,)`. -/
def unpack (r : PyVal) : List PyVal :=
  match r with
  | .tuple xs => xs
  | v => [v]

/-- `BaseTrigger.__call__` (hookt.py lines 28-34), for a resolved listener
set `F`: await the wrapped callable `W` on `args`; on failure the exception
propagates and no listener is spawned; on success `r`, spawn every listener
of `F` once with the normalized arguments `unpack r` and join; if every
listener succeeds the call returns `r`, otherwise the task group's failure
propagates. The second component is the multiset of spawn events
(listener id, argument list). -/
def callRun (W : List PyVal → Except Err PyVal) (F : Finset Nat)
    (env : Nat → List PyVal → Except Err PyVal) (args : List PyVal) :
    Except Err PyVal × Multiset (Nat × List PyVal) :=
  match W args with
  | .error e => (.error e, 0)
  | .ok r =>
    ((if ∀ f ∈ F, isOk (env f (unpack r)) = true then .ok r
      else .error .listenerFailure),
     F.val.map fun f => (f, unpack r))

/-- The state of a `Trigger` object (hookt.py lines 59-106):
the proxied function `__wrapped__`, the class-level listener set
`_self_listeners`, and the lazily created per-instance dict
`_self_instance_listeners` (`None` until first instance access). -/
structure Trigger where
  wrapped : List PyVal → Except Err PyVal
  selfListeners : Finset Nat
  instListeners : Option (List (Inst × Finset Nat))

namespace Trigger

/-- The state update performed by `Trigger.__get__` for a non-null instance
(hookt.py lines 78-82): if `_self_instance_listeners` is falsy (`None`, or
an empty dict) it is replaced by `{instance: set()}`; otherwise, if no key
equal to `instance` is present, a fresh empty set is inserted for it. -/
def allocate (t : Trigger) (i : Inst) : Trigger :=
  match t.instListeners with
  | none => { t with instListeners := some [(i, ∅)] }
  | some d =>
    if d = [] then { t with instListeners := some [(i, ∅)] }
    else if (dfind d i).isSome then t
    else { t with instListeners := some (d ++ [(i, ∅)]) }

/-- The set `self._self_instance_listeners[instance]` after resolution
(empty if the instance has no entry yet). -/
def instSet (t : Trigger) (i : Inst) : Finset Nat :=
  match t.instListeners with
  | none => ∅
  | some d => (dfind d i).getD ∅

/-- Result of `Trigger.__get__` (hookt.py lines 74-88): class-level access
returns the Trigger itself; instance access returns a `BoundTrigger` view,
modelled as the (updated) trigger state together with the instance key. -/
inductive GetResult where
  | unbound (t : Trigger)
  | bound (t : Trigger) (i : Inst)

/-- `Trigger.__get__` (hookt.py lines 74-88). `none` models a falsy
`instance` (class-level access). -/
def get (t : Trigger) (io : Option Inst) : GetResult :=
  match io with
  | none => .unbound t
  | some i => .bound (t.allocate i) i

/-- `BoundTrigger.listeners` (hookt.py lines 126-128): the union
`self._self_listeners | self._self_class_listeners` of the instance's
private set and the class-level set, computed at access time. -/
def boundListeners (t : Trigger) (i : Inst) : Finset Nat :=
  t.instSet i ∪ t.selfListeners

/-- `BoundTrigger.hook` (hookt.py lines 131-132): add the callback to the
instance's private set, which aliases the dict entry for that instance. -/
def boundHook (t : Trigger) (i : Inst) (cb : Nat) : Trigger :=
  match t.instListeners with
  | none => t
  | some d => { t with instListeners := some (dupdate d i (insert cb)) }

/-- `Trigger.hook` (hookt.py lines 91-100): with an instance, delegate to
the bound view's hook; with no instance (and no owner), add the callback to
`_self_listeners` (the class-level set). -/
def hook (t : Trigger) (cb : Nat) (io : Option Inst) : Trigger :=
  match io with
  | some i => (t.allocate i).boundHook i cb
  | none => { t with selfListeners := insert cb t.selfListeners }

/-- `Trigger.listeners` (hookt.py lines 103-106): the class-level set. -/
def listeners (t : Trigger) : Finset Nat :=
  t.selfListeners

/-- Invoking a Trigger directly (unbound): `BaseTrigger.__call__` with
`self.listeners = _self_listeners` and the raw wrapped function. The call
mutates no listener set, so the trigger state is returned unchanged. -/
def callUnbound (t : Trigger) (env : Nat → List PyVal → Except Err PyVal)
    (args : List PyVal) :
    Trigger × (Except Err PyVal × Multiset (Nat × List PyVal)) :=
  (t, callRun t.wrapped t.selfListeners env args)

/-- Invoking a Trigger through an instance's bound view: `__get__` first
updates the per-instance dict, then `BaseTrigger.__call__` runs with the
bound callable `__wrapped__.__get__(instance, owner)` (which prepends the
instance as `self`) and the union listener set of `BoundTrigger`. -/
def callBound (t : Trigger) (i : Inst)
    (env : Nat → List PyVal → Except Err PyVal) (args : List PyVal) :
    Trigger × (Except Err PyVal × Multiset (Nat × List PyVal)) :=
  let t2 := t.allocate i
  (t2, callRun (fun as => t2.wrapped (.inst i.id :: as))
    (t2.boundListeners i) env args)

end Trigger

/-- The state of a `DummyTrigger` object (hookt.py lines 38-55): just its
private listener set. Note that `DummyTrigger` never overrides the abstract
method `BaseTrigger.hook`, so Python refuses to instantiate the class; see
`TriggerGroup.hookName` below for where this matters. -/
structure DummyTrigger where
  listeners : Finset Nat

namespace DummyTrigger

/-- `DummyTrigger.__call__` (hookt.py lines 54-55): the method is declared
`async def __call__(self)`, so any positional argument raises the
interpreter's arity `TypeError` before the body runs; with no arguments the
body raises `TypeError("Trigger has not been defined yet")`. Either way the
listener set is untouched, so the state is returned unchanged. -/
def call (d : DummyTrigger) (args : List PyVal) :
    DummyTrigger × Except Err PyVal :=
  if args.isEmpty then (d, .error .typeErrorNotDefined)
  else (d, .error .typeErrorExtraArgs)

end DummyTrigger

/-- A registry entry of a `TriggerGroup`: either a real `Trigger` or a
`DummyTrigger` placeholder. -/
inductive Entry where
  | real (t : Trigger)
  | dummy (d : DummyTrigger)

/-- The state of a `TriggerGroup` (hookt.py lines 136-201): the registry
dict `_hashed_hooks`, an association list keyed by name. -/
structure TriggerGroup where
  hashed_hooks : List (String × Entry)

namespace TriggerGroup

/-- Registry lookup: `name in self._hashed_hooks` resolves to the first
entry with an equal key. -/
def findEntry (g : TriggerGroup) (name : String) : Option Entry :=
  (g.hashed_hooks.find? fun p => p.1 = name).map Prod.snd

/-- `name in self._hashed_hooks` (hookt.py lines 155-156, 175, 196). -/
def containsName (g : TriggerGroup) (name : String) : Bool :=
  (g.findEntry name).isSome

/-- Replacement of the entry stored under `name` (mutation of the Trigger
object the registry aliases). -/
def setEntry (g : TriggerGroup) (name : String) (e : Entry) : TriggerGroup :=
  { hashed_hooks :=
      g.hashed_hooks.map fun p => if p.1 = name then (p.1, e) else p }

/-- The decorator returned by `TriggerGroup.trigger(name)`, applied to a
function `f` (hookt.py lines 174-183). When `name` is already present,
line 176 rebinds the local `f` to the registry entry and line 177 then
evaluates `isinstance(h, Trigger)` — but `h` is never assigned in this
scope, so Python raises `NameError` before any isinstance test, and the
registry is left unchanged. When `name` is absent, a fresh `Trigger` with
an empty listener set is created, stored under `name` (dicts append new
keys at the end), and returned. -/
def triggerDeco (g : TriggerGroup) (name : String)
    (f : List PyVal → Except Err PyVal) : TriggerGroup × Except Err Trigger :=
  if g.containsName name then
    (g, .error .nameErrorUnboundH)
  else
    let t : Trigger := { wrapped := f, selfListeners := ∅, instListeners := none }
    ({ hashed_hooks := g.hashed_hooks ++ [(name, .real t)] }, .ok t)

/-- `TriggerGroup.hook(name, instance, owner)` (hookt.py lines 187-201),
with the callback the returned decorator is applied to. If `name` is
absent the code executes `DummyTrigger()` — which raises `TypeError`
because `DummyTrigger` leaves `BaseTrigger.hook` abstract — before
anything is inserted, so the registry is unchanged. If `name` maps to a
real `Trigger`, the module-level `hook` delegates to `Trigger.hook` with
the given instance, mutating that trigger in place. If it mapped to a
`DummyTrigger` (unreachable, since one can never be constructed), the
resolved `hook` attribute would be the abstract `BaseTrigger.hook`, whose
body is `pass`: nothing would be registered. -/
def hookName (g : TriggerGroup) (name : String) (cb : Nat)
    (io : Option Inst) : TriggerGroup × Except Err Unit :=
  if g.containsName name then
    match g.findEntry name with
    | some (.real t) => (g.setEntry name (.real (t.hook cb io)), .ok ())
    | some (.dummy d) => (g.setEntry name (.dummy d), .ok ())
    | none => (g, .ok ())
  else
    (g, .error .typeErrorAbstractDummy)

end TriggerGroup

/-! Helper lemmas about dict lookup and update. -/

theorem dfind_congr {i j : Inst} (d : List (Inst × Finset Nat))
    (h : i.eqKey = j.eqKey) : dfind d i = dfind d j := by
  induction d with
  | nil => rfl
  | cons p rest ih => simp only [dfind, h, ih]

theorem dfind_append (d1 d2 : List (Inst × Finset Nat)) (i : Inst) :
    dfind (d1 ++ d2) i =
      match dfind d1 i with
      | some s => some s
      | none => dfind d2 i := by
  induction d1 with
  | nil => rfl
  | cons p rest ih =>
    by_cases h : p.1.eqKey = i.eqKey
    · simp [dfind, h]
    · simp [dfind, h, ih]

theorem dfind_dupdate_ne {i j : Inst} (d : List (Inst × Finset Nat))
    (g : Finset Nat → Finset Nat) (h : j.eqKey ≠ i.eqKey) :
    dfind (dupdate d i g) j = dfind d j := by
  induction d with
  | nil => rfl
  | cons p rest ih =>
    by_cases hp : p.1.eqKey = i.eqKey
    · have hpj : ¬ p.1.eqKey = j.eqKey := fun c => h (c ▸ hp)
      simp [dupdate, dfind, hp, hpj, Ne.symm h]
    · simp only [dupdate, hp, if_false, dfind, ih]

theorem dfind_dupdate_self {i : Inst} {d : List (Inst × Finset Nat)}
    {s : Finset Nat} (g : Finset Nat → Finset Nat) (h : dfind d i = some s) :
    dfind (dupdate d i g) i = some (g s) := by
  induction d with
  | nil => simp [dfind] at h
  | cons p rest ih =>
    by_cases hp : p.1.eqKey = i.eqKey
    · simp [dfind, hp] at h
      simp [dupdate, dfind, hp, h]
    · simp only [dfind, hp, if_false] at h
      simp only [dupdate, hp, if_false, dfind, ih h]

/-! Helper lemmas about the fields preserved by the Trigger state updates. -/

theorem Trigger.wrapped_allocate (t : Trigger) (i : Inst) :
    (t.allocate i).wrapped = t.wrapped := by
  unfold Trigger.allocate
  split
  · rfl
  · split
    · rfl
    · split <;> rfl

theorem Trigger.selfListeners_allocate (t : Trigger) (i : Inst) :
    (t.allocate i).selfListeners = t.selfListeners := by
  unfold Trigger.allocate
  split
  · rfl
  · split
    · rfl
    · split <;> rfl

theorem Trigger.wrapped_boundHook (t : Trigger) (i : Inst) (cb : Nat) :
    (t.boundHook i cb).wrapped = t.wrapped := by
  unfold Trigger.boundHook
  cases t.instListeners <;> rfl

theorem Trigger.selfListeners_boundHook (t : Trigger) (i : Inst) (cb : Nat) :
    (t.boundHook i cb).selfListeners = t.selfListeners := by
  unfold Trigger.boundHook
  cases t.instListeners <;> rfl

theorem Trigger.wrapped_hook (t : Trigger) (cb : Nat) (io : Option Inst) :
    (t.hook cb io).wrapped = t.wrapped := by
  cases io with
  | none => rfl
  | some i =>
    show ((t.allocate i).boundHook i cb).wrapped = t.wrapped
    rw [Trigger.wrapped_boundHook, Trigger.wrapped_allocate]

theorem Trigger.selfListeners_hook_some (t : Trigger) (cb : Nat) (i : Inst) :
    (t.hook cb (some i)).selfListeners = t.selfListeners := by
  show ((t.allocate i).boundHook i cb).selfListeners = t.selfListeners
  rw [Trigger.selfListeners_boundHook, Trigger.selfListeners_allocate]

/-! Helper lemmas about per-instance sets. -/

theorem Trigger.instSet_allocate_self (t : Trigger) (i : Inst) :
    (t.allocate i).instSet i = t.instSet i := by
  cases hI : t.instListeners with
  | none => simp [Trigger.allocate, Trigger.instSet, hI, dfind]
  | some d =>
    by_cases hd : d = []
    · subst hd; simp [Trigger.allocate, Trigger.instSet, hI, dfind]
    · by_cases hf : (dfind d i).isSome
      · rcases Option.isSome_iff_exists.1 hf with ⟨s, hs⟩
        simp [Trigger.allocate, Trigger.instSet, hI, hd, hf, hs]
      · have hn := Option.not_isSome_iff_eq_none.1 hf
        simp [Trigger.allocate, Trigger.instSet, hI, hd, hn, dfind_append, dfind]

theorem Trigger.instSet_allocate_ne {i j : Inst} (t : Trigger)
    (h : j.eqKey ≠ i.eqKey) : (t.allocate i).instSet j = t.instSet j := by
  have hji : ¬ i.eqKey = j.eqKey := fun c => h c.symm
  cases hI : t.instListeners with
  | none => simp [Trigger.allocate, Trigger.instSet, hI, dfind, hji]
  | some d =>
    by_cases hd : d = []
    · subst hd; simp [Trigger.allocate, Trigger.instSet, hI, dfind, hji]
    · by_cases hf : (dfind d i).isSome
      · simp [Trigger.allocate, Trigger.instSet, hI, hd, hf]
      · have hn := Option.not_isSome_iff_eq_none.1 hf
        have ha : (t.allocate i).instSet j = (dfind (d ++ [(i, ∅)]) j).getD ∅ := by
          simp [Trigger.allocate, Trigger.instSet, hI, hd, hn]
        rw [ha, dfind_append]
        cases hq : dfind d j with
        | none => simp [Trigger.instSet, hI, hq, dfind, hji]
        | some s => simp [Trigger.instSet, hI, hq]

theorem Trigger.allocate_isSome (t : Trigger) (i : Inst) :
    ∃ d, (t.allocate i).instListeners = some d ∧
      dfind d i = some (t.instSet i) := by
  cases hI : t.instListeners with
  | none =>
    exact ⟨[(i, ∅)], by simp [Trigger.allocate, hI],
      by simp [Trigger.instSet, hI, dfind]⟩
  | some d =>
    by_cases hd : d = []
    · subst hd
      exact ⟨[(i, ∅)], by simp [Trigger.allocate, hI],
        by simp [Trigger.instSet, hI, dfind]⟩
    · by_cases hf : (dfind d i).isSome
      · rcases Option.isSome_iff_exists.1 hf with ⟨s, hs⟩
        exact ⟨d, by simp [Trigger.allocate, hI, hd, hf],
          by simp [Trigger.instSet, hI, hs]⟩
      · have hn := Option.not_isSome_iff_eq_none.1 hf
        refine ⟨d ++ [(i, ∅)], by simp [Trigger.allocate, hI, hd, hn], ?_⟩
        simp [Trigger.instSet, hI, dfind_append, hn, dfind]

theorem Trigger.instSet_hook_self (t : Trigger) (cb : Nat) (i : Inst) :
    (t.hook cb (some i)).instSet i = insert cb (t.instSet i) := by
  show ((t.allocate i).boundHook i cb).instSet i = insert cb (t.instSet i)
  rcases t.allocate_isSome i with ⟨d, hd, hfind⟩
  unfold Trigger.boundHook
  rw [hd]
  simp only [Trigger.instSet, dfind_dupdate_self (insert cb) hfind, Option.getD_some]

theorem Trigger.instSet_hook_ne {i j : Inst} (t : Trigger) (cb : Nat)
    (h : j.eqKey ≠ i.eqKey) : (t.hook cb (some i)).instSet j = t.instSet j := by
  show ((t.allocate i).boundHook i cb).instSet j = t.instSet j
  have h2 : ((t.allocate i).boundHook i cb).instSet j = (t.allocate i).instSet j := by
    cases hI : (t.allocate i).instListeners with
    | none => simp [Trigger.boundHook, hI]
    | some d =>
      simp [Trigger.boundHook, Trigger.instSet, hI, dfind_dupdate_ne d (insert cb) h]
  rw [h2, Trigger.instSet_allocate_ne t h]

/-! Helper lemmas about the spawn multiset of `callRun`. -/

theorem spawn_count_one {F : Finset Nat} {L : Nat} (hL : L ∈ F)
    (s : List PyVal) :
    Multiset.count (L, s) (F.val.map fun f => (f, s)) = 1 := by
  have hinj : Function.Injective (fun f : Nat => (f, s)) := by
    intro a b hab
    exact congrArg Prod.fst hab
  refine Multiset.count_eq_one_of_mem (F.nodup.map hinj) ?_
  exact Multiset.mem_map_of_mem _ hL

theorem spawn_mem {F : Finset Nat} {L : Nat} {s xs : List PyVal}
    (h : (L, xs) ∈ (F.val.map fun f => (f, s))) : L ∈ F ∧ xs = s := by
  rcases Multiset.mem_map.1 h with ⟨g, hg, he⟩
  cases he
  exact ⟨hg, rfl⟩

/-! Helper lemmas about `callRun`. -/

theorem callRun_error (W : List PyVal → Except Err PyVal) (F : Finset Nat)
    (env : Nat → List PyVal → Except Err PyVal) (args : List PyVal) (e : Err)
    (h : W args = .error e) : callRun W F env args = (.error e, 0) := by
  unfold callRun
  rw [h]

theorem callRun_ok_spawns (W : List PyVal → Except Err PyVal) (F : Finset Nat)
    (env : Nat → List PyVal → Except Err PyVal) (args : List PyVal) (r : PyVal)
    (h : W args = .ok r) :
    (callRun W F env args).2 = F.val.map fun f => (f, unpack r) := by
  unfold callRun
  rw [h]

theorem callRun_ok_ret (W : List PyVal → Except Err PyVal) (F : Finset Nat)
    (env : Nat → List PyVal → Except Err PyVal) (args : List PyVal) (r : PyVal)
    (h : W args = .ok r)
    (hl : ∀ f ∈ F, isOk (env f (unpack r)) = true) :
    (callRun W F env args).1 = .ok r := by
  unfold callRun
  rw [h]
  show (if (∀ f ∈ F, isOk (env f (unpack r)) = true) then Except.ok r
    else Except.error Err.listenerFailure) = Except.ok r
  exact if_pos hl

theorem Trigger.mem_boundListeners {t : Trigger} {i : Inst} {cb : Nat} :
    cb ∈ t.boundListeners i ↔ cb ∈ t.instSet i ∨ cb ∈ t.selfListeners :=
  Finset.mem_union

theorem Trigger.selfListeners_hook_none (t : Trigger) (cb : Nat) :
    (t.hook cb none).selfListeners = insert cb t.selfListeners := rfl

theorem Trigger.callBound_eq (t : Trigger) (i : Inst)
    (env : Nat → List PyVal → Except Err PyVal) (args : List PyVal) :
    Trigger.callBound t i env args =
      (t.allocate i,
       callRun (fun as => (t.allocate i).wrapped (.inst i.id :: as))
         ((t.allocate i).boundListeners i) env args) := rfl

theorem Trigger.callUnbound_eq (t : Trigger)
    (env : Nat → List PyVal → Except Err PyVal) (args : List PyVal) :
    Trigger.callUnbound t env args =
      (t, callRun t.wrapped t.selfListeners env args) := rfl

/-- Whether the per-instance dict already holds an entry whose key compares
equal to `i` (the state tested by `instance not in self._self_instance_listeners`,
with a falsy dict counting as no entry). -/
def Trigger.hasInst (t : Trigger) (i : Inst) : Bool :=
  match t.instListeners with
  | none => false
  | some d => (dfind d i).isSome

theorem Trigger.instSet_congr {i j : Inst} (t : Trigger)
    (h : i.eqKey = j.eqKey) : t.instSet i = t.instSet j := by
  cases hI : t.instListeners with
  | none => simp [Trigger.instSet, hI]
  | some d => simp [Trigger.instSet, hI, dfind_congr d h]

theorem Trigger.instSet_of_not_hasInst {t : Trigger} {i : Inst}
    (h : t.hasInst i = false) : t.instSet i = ∅ := by
  cases hI : t.instListeners with
  | none => simp [Trigger.instSet, hI]
  | some d =>
    rcases hq : dfind d i with _ | s
    · simp [Trigger.instSet, hI, hq]
    · exfalso
      have h2 := h
      simp only [Trigger.hasInst, hI, hq, Option.isSome_some] at h2
      exact Bool.noConfusion h2

theorem Trigger.hasInst_allocate (t : Trigger) (i : Inst) :
    (t.allocate i).hasInst i = true := by
  rcases t.allocate_isSome i with ⟨d, hd, hfind⟩
  simp [Trigger.hasInst, hd, hfind]

theorem Trigger.allocate_found {u : Trigger} {j : Inst}
    {d : List (Inst × Finset Nat)} (hd : u.instListeners = some d)
    (hne : d ≠ []) (hf : (dfind d j).isSome = true) : u.allocate j = u := by
  simp [Trigger.allocate, hd, hne, hf]

theorem Trigger.allocate_allocate {i j : Inst} (t : Trigger)
    (h : i.eqKey = j.eqKey) : (t.allocate i).allocate j = t.allocate i := by
  rcases t.allocate_isSome i with ⟨d, hd, hfind⟩
  have hne : d ≠ [] := by
    intro c
    rw [c] at hfind
    exact Option.noConfusion hfind
  have hdj : dfind d j = some (t.instSet i) := dfind_congr d h ▸ hfind
  exact Trigger.allocate_found hd hne (by rw [hdj]; rfl)

/-! Claim theorems. -/

/-- Claim C1: a listener `L` hooked on a trigger's class scope (`hook` with
no instance and no owner) is called exactly once by an invocation of the
trigger through any instance's bound view, with the wrapped result (or its
unpacked tuple elements) as arguments: in the spawn multiset of the call,
the pair `(L, unpack r)` occurs exactly once, and every spawn of `L` in
that call carries exactly the arguments `unpack r`. -/
theorem C1_class_listener_fires_once (t : Trigger) (L : Nat) (i : Inst)
    (env : Nat → List PyVal → Except Err PyVal) (args : List PyVal) (r : PyVal)
    (hr : t.wrapped (.inst i.id :: args) = .ok r) :
    Multiset.count (L, unpack r)
        ((Trigger.callBound (t.hook L none) i env args).2.2) = 1 ∧
    ∀ xs, (L, xs) ∈ ((Trigger.callBound (t.hook L none) i env args).2.2) →
      xs = unpack r := by
  have hw : ((t.hook L none).allocate i).wrapped = t.wrapped := by
    rw [Trigger.wrapped_allocate, Trigger.wrapped_hook]
  have hWr : (fun as => ((t.hook L none).allocate i).wrapped (.inst i.id :: as)) args
      = .ok r := by
    show ((t.hook L none).allocate i).wrapped (.inst i.id :: args) = .ok r
    rw [hw, hr]
  have hspawn : (Trigger.callBound (t.hook L none) i env args).2.2
      = (((t.hook L none).allocate i).boundListeners i).val.map
          (fun f => (f, unpack r)) := by
    rw [Trigger.callBound_eq]
    exact callRun_ok_spawns _ _ env args r hWr
  have hL : L ∈ ((t.hook L none).allocate i).boundListeners i := by
    refine Trigger.mem_boundListeners.2 (Or.inr ?_)
    rw [Trigger.selfListeners_allocate, Trigger.selfListeners_hook_none]
    exact Finset.mem_insert_self L _
  constructor
  · rw [hspawn]
    exact spawn_count_one hL _
  · intro xs hxs
    rw [hspawn] at hxs
    exact (spawn_mem hxs).2

/-- Witness for C1 at a concrete input. -/
theorem C1_witness :
    Multiset.count (5, [PyVal.atom 3])
        ((Trigger.callBound
            (Trigger.hook ⟨fun _ => .ok (.atom 3), ∅, none⟩ 5 none)
            ⟨0, 0⟩ (fun _ _ => .ok (.atom 0)) []).2.2) = 1 ∧
    ∀ xs, (5, xs) ∈ ((Trigger.callBound
            (Trigger.hook ⟨fun _ => .ok (.atom 3), ∅, none⟩ 5 none)
            ⟨0, 0⟩ (fun _ _ => .ok (.atom 0)) []).2.2) →
      xs = [PyVal.atom 3] :=
  C1_class_listener_fires_once ⟨fun _ => .ok (.atom 3), ∅, none⟩ 5 ⟨0, 0⟩
    (fun _ _ => .ok (.atom 0)) [] (.atom 3) rfl

/-- Claim C2: for two instances `A` and `B` of a class sharing a trigger
that do not compare equal (`A != B`, modelled as distinct `eqKey`), hooking
a callback through A's bound view leaves `class_listeners` (the trigger's
`_self_listeners`) unchanged, puts the callback into A's private set only,
and a subsequent invocation through B's bound view never spawns it. -/
theorem C2_per_instance_isolation (t : Trigger) (A B : Inst) (cb : Nat)
    (env : Nat → List PyVal → Except Err PyVal) (args : List PyVal)
    (hAB : B.eqKey ≠ A.eqKey)
    (hcb1 : cb ∉ t.selfListeners) (hcb2 : cb ∉ t.instSet B) :
    (t.hook cb (some A)).selfListeners = t.selfListeners ∧
    cb ∈ (t.hook cb (some A)).instSet A ∧
    ∀ xs, (cb, xs) ∉ (Trigger.callBound (t.hook cb (some A)) B env args).2.2 := by
  refine ⟨Trigger.selfListeners_hook_some t cb A, ?_, ?_⟩
  · rw [Trigger.instSet_hook_self]
    exact Finset.mem_insert_self cb _
  · intro xs hxs
    rcases hW : ((t.hook cb (some A)).allocate B).wrapped (.inst B.id :: args) with e | r
    · have hz : (Trigger.callBound (t.hook cb (some A)) B env args).2.2 = 0 := by
        rw [Trigger.callBound_eq]
        rw [callRun_error _ _ env args e hW]
      exact Multiset.not_mem_zero _ (hz ▸ hxs)
    · have hs : (Trigger.callBound (t.hook cb (some A)) B env args).2.2
          = (((t.hook cb (some A)).allocate B).boundListeners B).val.map
              (fun f => (f, unpack r)) := by
        rw [Trigger.callBound_eq]
        exact callRun_ok_spawns _ _ env args r hW
      rw [hs] at hxs
      have hmem := Trigger.mem_boundListeners.1 (spawn_mem hxs).1
      rcases hmem with hm | hm
      · rw [Trigger.instSet_allocate_self, Trigger.instSet_hook_ne t cb hAB] at hm
        exact hcb2 hm
      · rw [Trigger.selfListeners_allocate, Trigger.selfListeners_hook_some] at hm
        exact hcb1 hm

/-- Witness for C2 at a concrete input. -/
theorem C2_witness :
    (Trigger.hook ⟨fun _ => .ok (.atom 0), ∅, none⟩ 7 (some ⟨0, 0⟩)).selfListeners
        = (⟨fun _ => .ok (.atom 0), ∅, none⟩ : Trigger).selfListeners ∧
    7 ∈ (Trigger.hook ⟨fun _ => .ok (.atom 0), ∅, none⟩ 7 (some ⟨0, 0⟩)).instSet ⟨0, 0⟩ ∧
    ∀ xs, (7, xs) ∉ (Trigger.callBound
        (Trigger.hook ⟨fun _ => .ok (.atom 0), ∅, none⟩ 7 (some ⟨0, 0⟩))
        ⟨1, 1⟩ (fun _ _ => .ok (.atom 0)) []).2.2 :=
  C2_per_instance_isolation ⟨fun _ => .ok (.atom 0), ∅, none⟩ ⟨0, 0⟩ ⟨1, 1⟩ 7
    (fun _ _ => .ok (.atom 0)) [] (by decide) (by decide) (by decide)

/-- Claim C5: listener-argument normalization of `BaseTrigger.__call__`: a
non-tuple result `v` is passed to every resolved listener as the sole
argument, and a pair result `(a, b)` is unpacked into two separate
positional arguments. -/
theorem C5_result_normalization (W : List PyVal → Except Err PyVal)
    (F : Finset Nat) (env : Nat → List PyVal → Except Err PyVal)
    (args : List PyVal) :
    (∀ v, W args = .ok v → (∀ xs, v ≠ .tuple xs) →
      (callRun W F env args).2 = F.val.map fun f => (f, [v])) ∧
    (∀ a b, W args = .ok (.tuple [a, b]) →
      (callRun W F env args).2 = F.val.map fun f => (f, [a, b])) := by
  constructor
  · intro v hv hnt
    rw [callRun_ok_spawns W F env args v hv]
    have hu : unpack v = [v] := by
      cases v with
      | atom n => rfl
      | inst n => rfl
      | tuple xs => exact absurd rfl (hnt xs)
    rw [hu]
  · intro a b hv
    rw [callRun_ok_spawns W F env args (.tuple [a, b]) hv]
    rfl

/-- Witness for C5 at concrete inputs. -/
theorem C5_witness :
    (callRun (fun _ => .ok (.atom 2)) {4} (fun _ _ => .ok (.atom 0)) []).2
        = ({4} : Finset Nat).val.map (fun f => (f, [PyVal.atom 2])) ∧
    (callRun (fun _ => .ok (.tuple [.atom 1, .atom 2])) {4}
        (fun _ _ => .ok (.atom 0)) []).2
        = ({4} : Finset Nat).val.map (fun f => (f, [PyVal.atom 1, PyVal.atom 2])) :=
  ⟨(C5_result_normalization (fun _ => .ok (.atom 2)) {4}
      (fun _ _ => .ok (.atom 0)) []).1 (.atom 2) rfl (fun _ => nofun),
   (C5_result_normalization (fun _ => .ok (.tuple [.atom 1, .atom 2])) {4}
      (fun _ _ => .ok (.atom 0)) []).2 (.atom 1) (.atom 2) rfl⟩

/-- Claim C6: when the wrapped callable returns `r` and every resolved
listener completes successfully, the invocation returns exactly `r`,
whatever values the listeners themselves return. -/
theorem C6_returns_wrapped_result (W : List PyVal → Except Err PyVal)
    (F : Finset Nat) (env : Nat → List PyVal → Except Err PyVal)
    (args : List PyVal) (r : PyVal) (hr : W args = .ok r)
    (hl : ∀ f ∈ F, isOk (env f (unpack r)) = true) :
    (callRun W F env args).1 = .ok r :=
  callRun_ok_ret W F env args r hr hl

/-- Witness for C6 at a concrete input, with a listener returning a value
different from the trigger's result. -/
theorem C6_witness :
    (callRun (fun _ => .ok (.atom 1)) {4} (fun _ _ => .ok (.atom 9)) []).1
      = .ok (.atom 1) :=
  C6_returns_wrapped_result (fun _ => .ok (.atom 1)) {4}
    (fun _ _ => .ok (.atom 9)) [] (.atom 1) rfl (by decide)

/-- Claim C7: when the wrapped callable raises, the exception propagates
unchanged, no listener is spawned, and the trigger state (hence every
listener set) is returned unchanged. -/
theorem C7_wrapped_failure_propagates (t : Trigger)
    (env : Nat → List PyVal → Except Err PyVal) (args : List PyVal) (e : Err)
    (he : t.wrapped args = .error e) :
    Trigger.callUnbound t env args = (t, (.error e, 0)) := by
  rw [Trigger.callUnbound_eq, callRun_error t.wrapped t.selfListeners env args e he]

/-- Witness for C7 at a concrete input. -/
theorem C7_witness :
    Trigger.callUnbound ⟨fun _ => .error (.user 0), {4}, none⟩
        (fun _ _ => .ok (.atom 0)) []
      = (⟨fun _ => .error (.user 0), {4}, none⟩, (.error (.user 0), 0)) :=
  C7_wrapped_failure_propagates ⟨fun _ => .error (.user 0), {4}, none⟩
    (fun _ _ => .ok (.atom 0)) [] (.user 0) rfl

/-- Claim C10: a direct (unbound) invocation of a Trigger resolves its
listener set to exactly `class_listeners` (`_self_listeners`): the spawn
multiset is exactly one spawn per class-level listener, and a callback not
in `class_listeners` (for example one registered in some instance's
private set) is never spawned. -/
theorem C10_unbound_uses_class_listeners (t : Trigger)
    (env : Nat → List PyVal → Except Err PyVal) (args : List PyVal)
    (r : PyVal) (cb : Nat)
    (hr : t.wrapped args = .ok r) (hcb : cb ∉ t.selfListeners) :
    (Trigger.callUnbound t env args).2.2
        = t.selfListeners.val.map (fun f => (f, unpack r)) ∧
    ∀ xs, (cb, xs) ∉ (Trigger.callUnbound t env args).2.2 := by
  have h1 : (Trigger.callUnbound t env args).2.2
      = t.selfListeners.val.map (fun f => (f, unpack r)) := by
    rw [Trigger.callUnbound_eq]
    exact callRun_ok_spawns t.wrapped t.selfListeners env args r hr
  refine ⟨h1, ?_⟩
  intro xs hxs
  rw [h1] at hxs
  exact hcb (spawn_mem hxs).1

/-- Witness for C10 at a concrete input: the trigger has class listener 4,
and callback 7 (hooked nowhere at class level) is never spawned. -/
theorem C10_witness :
    (Trigger.callUnbound ⟨fun _ => .ok (.atom 3), {4}, some [(⟨0, 0⟩, {7})]⟩
        (fun _ _ => .ok (.atom 0)) []).2.2
      = ({4} : Finset Nat).val.map (fun f => (f, [PyVal.atom 3])) ∧
    ∀ xs, (7, xs) ∉ (Trigger.callUnbound
        ⟨fun _ => .ok (.atom 3), {4}, some [(⟨0, 0⟩, {7})]⟩
        (fun _ _ => .ok (.atom 0)) []).2.2 :=
  C10_unbound_uses_class_listeners
    ⟨fun _ => .ok (.atom 3), {4}, some [(⟨0, 0⟩, {7})]⟩
    (fun _ _ => .ok (.atom 0)) [] (.atom 3) 7 rfl (by decide)

/-- Claim C8, counterexample to the statement as written: invoking a
DummyTrigger with one positional argument fails with the interpreter's
arity TypeError (its `__call__` accepts no arguments), which is not the
"trigger not yet defined" error the claim promises for every combination
of call arguments. -/
theorem C8_counterexample :
    (DummyTrigger.call ⟨∅⟩ [PyVal.atom 0]).2 = .error .typeErrorExtraArgs ∧
    Err.typeErrorExtraArgs ≠ Err.typeErrorNotDefined :=
  ⟨rfl, by decide⟩

/-- Claim C8 (amended): every invocation of a DummyTrigger fails — with the
"trigger not yet defined" TypeError when called with no arguments, and with
the interpreter's arity TypeError when called with arguments — and in every
case the listener set is left unchanged. -/
theorem C8_dummy_call_always_fails (d : DummyTrigger) (args : List PyVal) :
    ((DummyTrigger.call d args).2 = .error .typeErrorNotDefined ∨
      (DummyTrigger.call d args).2 = .error .typeErrorExtraArgs) ∧
    (args = [] → (DummyTrigger.call d args).2 = .error .typeErrorNotDefined) ∧
    (args ≠ [] → (DummyTrigger.call d args).2 = .error .typeErrorExtraArgs) ∧
    (DummyTrigger.call d args).1 = d := by
  cases args with
  | nil => exact ⟨Or.inl rfl, fun _ => rfl, fun h => absurd rfl h, rfl⟩
  | cons x xs => exact ⟨Or.inr rfl, fun h => List.noConfusion h, fun _ => rfl, rfl⟩

/-- Witness for (amended) C8 at a concrete input: the zero-argument call
fails with the "not yet defined" error. -/
theorem C8_witness :
    (DummyTrigger.call ⟨{9}⟩ []).2 = .error .typeErrorNotDefined ∧
    (DummyTrigger.call ⟨{9}⟩ []).1 = (⟨{9}⟩ : DummyTrigger) :=
  ⟨(C8_dummy_call_always_fails ⟨{9}⟩ []).2.1 rfl,
   (C8_dummy_call_always_fails ⟨{9}⟩ []).2.2.2⟩

/-- Claim C9, counterexample to the statement as written: the per-instance
dict is a Python dict, which keys on `__eq__`/`__hash__`, not on identity.
For two distinct instances (different identity `id`) that compare equal
(same `eqKey`), a listener hooked through the first instance's bound view
lands in a set that the second instance resolves to as well: the two
instances share one per-instance set. -/
theorem C9_counterexample :
    (Trigger.hook ⟨fun _ => .ok (.atom 0), ∅, none⟩ 7 (some ⟨0, 5⟩)).instSet ⟨1, 5⟩
      = {7} ∧
    (⟨0, 5⟩ : Inst) ≠ (⟨1, 5⟩ : Inst) := by
  exact ⟨by decide, by decide⟩

/-- Claim C9 (amended): attribute access with no instance returns the
Trigger itself; the first access for an instance with no equal entry
allocates a fresh empty listener set and records the instance; a later
access through an instance comparing equal reuses the existing entry
(no new allocation); the sets are keyed by dict equality
(`__eq__`/`__hash__`), so instances comparing equal resolve to the same
set, while a callback hooked through one instance never appears in the set
of an instance comparing unequal. -/
theorem C9_instance_sets_keyed_by_equality (t : Trigger) (i j k : Inst)
    (cb : Nat) :
    (Trigger.get t none = .unbound t) ∧
    (t.hasInst i = false →
      (t.allocate i).instSet i = ∅ ∧ (t.allocate i).hasInst i = true) ∧
    (i.eqKey = j.eqKey → (t.allocate i).allocate j = t.allocate i) ∧
    (i.eqKey = j.eqKey → t.instSet i = t.instSet j) ∧
    (k.eqKey ≠ i.eqKey → cb ∉ t.instSet k →
      cb ∉ (t.hook cb (some i)).instSet k) := by
  refine ⟨rfl, ?_, ?_, ?_, ?_⟩
  · intro h
    exact ⟨by rw [Trigger.instSet_allocate_self, Trigger.instSet_of_not_hasInst h],
      Trigger.hasInst_allocate t i⟩
  · intro h
    exact Trigger.allocate_allocate t h
  · intro h
    exact Trigger.instSet_congr t h
  · intro hk hcb
    rw [Trigger.instSet_hook_ne t cb hk]
    exact hcb

/-- Witness for (amended) C9 at concrete inputs: instances `⟨0, 5⟩` and
`⟨1, 5⟩` compare equal, instance `⟨2, 9⟩` compares unequal. -/
theorem C9_witness :
    (Trigger.get ⟨fun _ => .ok (.atom 0), ∅, none⟩ none
        = .unbound ⟨fun _ => .ok (.atom 0), ∅, none⟩) ∧
    ((Trigger.allocate ⟨fun _ => .ok (.atom 0), ∅, none⟩ ⟨0, 5⟩).instSet ⟨0, 5⟩ = ∅ ∧
      (Trigger.allocate ⟨fun _ => .ok (.atom 0), ∅, none⟩ ⟨0, 5⟩).hasInst ⟨0, 5⟩ = true) ∧
    ((Trigger.allocate ⟨fun _ => .ok (.atom 0), ∅, none⟩ ⟨0, 5⟩).allocate ⟨1, 5⟩
        = Trigger.allocate ⟨fun _ => .ok (.atom 0), ∅, none⟩ ⟨0, 5⟩) ∧
    (Trigger.instSet ⟨fun _ => .ok (.atom 0), ∅, none⟩ ⟨0, 5⟩
        = Trigger.instSet ⟨fun _ => .ok (.atom 0), ∅, none⟩ ⟨1, 5⟩) ∧
    7 ∉ (Trigger.hook ⟨fun _ => .ok (.atom 0), ∅, none⟩ 7 (some ⟨0, 5⟩)).instSet ⟨2, 9⟩ :=
  have h := C9_instance_sets_keyed_by_equality
    ⟨fun _ => .ok (.atom 0), ∅, none⟩ ⟨0, 5⟩ ⟨1, 5⟩ ⟨2, 9⟩ 7
  ⟨h.1, h.2.1 rfl, h.2.2.1 rfl, h.2.2.2.1 rfl,
   h.2.2.2.2 (by decide) (by decide)⟩

/-- Claim C3, code evaluated at the failing input: hooking a listener on a
name that is not yet in a TriggerGroup's registry executes `DummyTrigger()`
(hookt.py line 197), which raises `TypeError` because `DummyTrigger` never
overrides the abstract method `BaseTrigger.hook`; the registry is left
unchanged and the listener is never registered, so the forward-hook flow
the claim (and the library's own docstrings) describe cannot happen. -/
theorem C3_forward_hook_raises :
    TriggerGroup.hookName ⟨[]⟩ "evt" 7 none
      = (⟨[]⟩, .error .typeErrorAbstractDummy) := rfl

/-- Claim C4, code evaluated at the failing input: declaring a second
trigger under a name that already maps to a real Trigger raises `NameError`
(the local `h` at hookt.py line 177 is read but never assigned — line 176
assigns `f` instead), not the `ValueError` "already defined" promised by
the method's own docstring; the registry entry is left unchanged. -/
theorem C4_duplicate_declaration_raises :
    TriggerGroup.triggerDeco
        ⟨[("t", .real ⟨fun _ => .ok (.atom 0), ∅, none⟩)]⟩ "t"
        (fun _ => .ok (.atom 1))
      = (⟨[("t", .real ⟨fun _ => .ok (.atom 0), ∅, none⟩)]⟩,
         .error .nameErrorUnboundH) := rfl

end Hookt
